import Mathlib

/-!
Verification of the job-lifecycle orchestrator in
`skills/auphonic-optimize/scripts/optimize_audio.py`.

The Python script is embedded shallowly: network responses become explicit
inputs (a response stream for the poller, a fetch oracle for the downloader),
`sys.exit(1)` aborts become error constructors, JSON dictionaries become
structures with `Option` fields (`none` models an absent or JSON-null key,
which the Python `dict.get` reads as falsy), and file writes become explicit
values describing what would be written.
-/

namespace AuphonicOptimize

/-! ## Constants (lines 40-44 of optimize_audio.py) -/

def STATUS_DONE : Int := 3

def STATUS_ERROR : Int := 9

def STATUS_INCOMPLETE : Int := 13

def POLL_INTERVAL : Nat := 10

def MAX_POLL_TIME : Nat := 600

/-! ## Data model

JSON values reaching the script.  String-valued fields that the script reads
with `dict.get` are `Option String`; a field read with `dict.get(k, default)`
keeps the `Option` and the default is applied with `Option.getD` at the use
site, mirroring the source.  Python truthiness of an optional string
(`not url`) holds for an absent key and for the empty string. -/

def strFalsy : Option String → Bool
  | none => true
  | some s => s = ""

/-- One `(value, unit)` metric pair from the statistics `levels` block.
A present pair models a non-empty JSON `[value, unit]` list, which is truthy. -/
structure MetricPair where
  value : String
  unit : String
deriving DecidableEq

/-- The `levels.input` / `levels.output` objects (spec: Statistics). -/
structure LevelSide where
  loudness : Option MetricPair
  snr : Option MetricPair
  peak : Option MetricPair
deriving DecidableEq

def emptyLevelSide : LevelSide := ⟨none, none, none⟩

/-- The `levels` object: `levels.get("input", {})` / `levels.get("output", {})`. -/
structure Levels where
  input : Option LevelSide
  output : Option LevelSide
deriving DecidableEq

/-- One entry of the `cuts` list (name, count, percent); count and percent are
kept as their printed text since the script only interpolates them. -/
structure Cut where
  name : String
  count : String
  percent : String
deriving DecidableEq

/-- The `statistics` object of a production.  `levels = none` models a missing
or falsy (empty/null) `levels` key, which line 250 reads as absent. -/
structure Statistics where
  levels : Option Levels
  cuts : Option (List Cut)
deriving DecidableEq

/-- One element of `output_files` in a production status body. -/
structure OutputFile where
  download_url : Option String
  filename : Option String
  format : Option String
  size_string : Option String
deriving DecidableEq

/-- The `data` object of a production response body
(`resp.json().get("data", {})`); all fields the script touches. -/
structure ProductionData where
  uuid : String
  status : Option Int
  status_string : Option String
  error_message : Option String
  warning_message : Option String
  output_files : List OutputFile
  statistics : Option Statistics
  length_timestring : Option String
deriving DecidableEq

def emptyProductionData : ProductionData :=
  ⟨"", none, none, none, none, [], none, none⟩

/-! ## Poller (`poll_status`, lines 141-173)

Each status query is one element of a response stream `responses : Nat →
PollResponse`: the transport status code of the i-th GET together with the
`data` object of its body (`{}` when absent).  The loop keeps the original
`waited` counter: sleep one interval, advance `waited`, query, classify. -/

/-- Transport result and parsed body of the i-th status query. -/
structure PollResponse where
  status_code : Nat
  data : ProductionData
deriving DecidableEq

/-- What one loop iteration decides after its query (lines 155-170). -/
inductive StepResult where
  | running
  | done (d : ProductionData)
  | failed (msg : String)
deriving DecidableEq

/-- Classification of one status query, lines 155-170: a non-200 transport
response retries; status 3 returns the body; 9 or 13 aborts; anything else
(including a missing status) keeps polling. -/
def pollStep (r : PollResponse) : StepResult :=
  if r.status_code ≠ 200 then .running
  else
    match r.data.status with
    | some s =>
      if s = STATUS_DONE then .done r.data
      else if s = STATUS_ERROR ∨ s = STATUS_INCOMPLETE then
        .failed (r.data.error_message.getD "Unknown error")
      else .running
    | none => .running

/-- Terminal result of `poll_status`: the returned snapshot, the
`sys.exit(1)` on a failed production, or the `sys.exit(1)` on timeout. -/
inductive PollOutcome where
  | succeeded (d : ProductionData)
  | jobFailed (msg : String)
  | timedOut
deriving DecidableEq

/-- Result of a whole polling run: outcome, final `waited` counter (equals
total time slept when started from 0), and number of status queries issued. -/
structure PollRun where
  outcome : PollOutcome
  waited : Nat
  queries : Nat
deriving DecidableEq

/-- The `while waited < MAX_POLL_TIME` loop of lines 146-170.  `i` counts the
queries issued so far and indexes the response stream. -/
def pollLoop (responses : Nat → PollResponse) (i waited : Nat) : PollRun :=
  if h : waited < MAX_POLL_TIME then
    let w := waited + POLL_INTERVAL
    match pollStep (responses i) with
    | .running => pollLoop responses (i + 1) w
    | .done d => ⟨.succeeded d, w, i + 1⟩
    | .failed m => ⟨.jobFailed m, w, i + 1⟩
  else ⟨.timedOut, waited, i⟩
termination_by MAX_POLL_TIME - waited
decreasing_by simp only [POLL_INTERVAL]; omega

/-- Entry point `poll_status`, started with `waited = 0` (line 144). -/
def poll_status (responses : Nat → PollResponse) : PollRun :=
  pollLoop responses 0 0

/-! ## Downloader (`download_results`, lines 176-215)

The transport is a fetch oracle `fetch : String → Nat` giving the HTTP
status code of the GET on each download URL.  `outDir` is the destination
directory as a path string relative to the repo root, so the on-disk
path of a written file (line 212) is `outDir ++ "/" ++ filename`. -/

/-- The auxiliary-format deny-list of line 189. -/
def DENY_FORMATS : List String :=
  ["descr", "stats", "chaps", "psc", "cut-list", "waveform", "image"]

/-- One entry of the returned `downloaded` list (lines 208-213). -/
structure Downloaded where
  filename : String
  format : String
  size : String
  path : String
deriving DecidableEq

/-- What the loop body (lines 182-213) does with one output file:
skip it silently for a falsy URL or filename, skip it silently for a
deny-listed format, warn and skip on a non-200 fetch, or write the file and
record a `Downloaded` entry. -/
inductive ArtifactResult where
  | skipped
  | denied
  | fetchFailed (filename : String) (code : Nat)
  | written (entry : Downloaded)
deriving DecidableEq

def processArtifact (fetch : String → Nat) (outDir : String) (of : OutputFile) :
    ArtifactResult :=
  if strFalsy of.download_url ∨ strFalsy of.filename then .skipped
  else
    let url := of.download_url.getD ""
    let filename := of.filename.getD ""
    let fmt := of.format.getD ""
    if fmt ∈ DENY_FORMATS then .denied
    else if fetch url ≠ 200 then .fetchFailed filename (fetch url)
    else
      .written ⟨filename, fmt, of.size_string.getD "", outDir ++ "/" ++ filename⟩

/-- Whether processing one artifact writes a file to disk (only the
`.written` branch reaches the `open(dest, "wb")` of line 204). -/
def writesFile : ArtifactResult → Bool
  | .written _ => true
  | _ => false

/-- Accumulated effect of `download_results`: the returned `downloaded` list,
the per-failure warnings (filename and HTTP code, line 200), and the on-disk
paths of the files actually written. -/
structure DownloadRun where
  downloaded : List Downloaded
  warnings : List (String × Nat)
  written : List String
deriving DecidableEq

def emptyDownloadRun : DownloadRun := ⟨[], [], []⟩

def dlStep (fetch : String → Nat) (outDir : String) (acc : DownloadRun)
    (of : OutputFile) : DownloadRun :=
  match processArtifact fetch outDir of with
  | .skipped => acc
  | .denied => acc
  | .fetchFailed fn code => { acc with warnings := acc.warnings ++ [(fn, code)] }
  | .written entry =>
      { acc with
        downloaded := acc.downloaded ++ [entry]
        written := acc.written ++ [entry.path] }

/-- Function `download_results`: fold the per-artifact step over
`production_data.get("output_files", [])`. -/
def download_results (fetch : String → Nat) (outDir : String)
    (output_files : List OutputFile) : DownloadRun :=
  output_files.foldl (dlStep fetch outDir) emptyDownloadRun

/-! ## Index reconciler (`update_index`, lines 218-243)

The JSON object of the index file becomes a map from key to entry; an absent key
is `none`.  `today` is the value of `datetime.now().strftime("%Y-%m-%d")`. -/

/-- The `origin` sub-object written at lines 234-238. -/
structure Origin where
  skill : String
  auphonic_production : String
  format : String
deriving DecidableEq

/-- One entry of `file_index.json`; `none` fields model absent keys. -/
structure IndexEntry where
  added : Option String
  type : Option String
  description : Option String
  notes : Option String
  origin : Option Origin
deriving DecidableEq

/-- Default of `index.get(key, ...)`: an entry with no keys. -/
def emptyIndexEntry : IndexEntry := ⟨none, none, none, none, none⟩

def Index := String → Option IndexEntry

/-- The mutation of one entry, lines 230-238: `added` keeps its value if
present else becomes the current date, `type` is overwritten with "audio",
`description`/`notes` are set only when absent, `origin` is overwritten. -/
def updateEntry (today production_uuid fmt : String) (e : IndexEntry) :
    IndexEntry where
  added := some (e.added.getD today)
  type := some "audio"
  description := some (e.description.getD "")
  notes := some (e.notes.getD "")
  origin := some ⟨"auphonic-optimize", production_uuid, fmt⟩

/-- The key of a downloaded file in the index (line 228). -/
def indexKey (output_dir : String) (dl : Downloaded) : String :=
  output_dir ++ "/" ++ dl.filename

/-- The merge loop of `update_index` (lines 227-239), before persisting. -/
def update_index (today production_uuid output_dir : String)
    (downloaded : List Downloaded) (index : Index) : Index :=
  downloaded.foldl
    (fun idx dl =>
      let key := indexKey output_dir dl
      let entry := (idx key).getD emptyIndexEntry
      let entry := updateEntry today production_uuid dl.format entry
      fun k => if k = key then some entry else idx k)
    index

/-- On-disk contents observable during the persist step (lines 241-243):
`open(index_path, "w")` first truncates the file, then the serialized index
is written to it sequentially in parts.  Starting from prior content `old`,
one can observe `old`, then the empty truncated file, then each longer
written part, ending with the full new content `String.join chunks`. -/
def persistStates (old : String) (chunks : List String) : List String :=
  old :: (List.range (chunks.length + 1)).map (fun i => String.join (chunks.take i))

/-! ## Stats extractor (`extract_stats`, lines 246-271)

The `result` dict is an insertion-ordered association list; inserting an
existing key overwrites it in place, a fresh key is appended, exactly as a
Python dict behaves. -/

def dictInsert (d : List (String × String)) (k v : String) :
    List (String × String) :=
  if d.any (fun p => p.1 = k) then d.map (fun p => if p.1 = k then (k, v) else p)
  else d ++ [(k, v)]

/-- The printed form of one metric (for example line 258). -/
def fmtMetric (m : MetricPair) : String := m.value ++ " " ++ m.unit

/-- The printed form of one cut entry (line 269). -/
def fmtCut (c : Cut) : String := c.count ++ " cuts (" ++ c.percent ++ "%)"

/-- Function `extract_stats`: here `statistics = none` models a production body without a
`statistics` key (`{}` at line 248), whose `levels` lookup is absent. -/
def extract_stats (statistics : Option Statistics) :
    Option (List (String × String)) :=
  match statistics with
  | none => none
  | some stats =>
    match stats.levels with
    | none => none
    | some levels =>
      let inp := levels.input.getD emptyLevelSide
      let out := levels.output.getD emptyLevelSide
      let result : List (String × String) := []
      let result := match inp.loudness with
        | some m => dictInsert result "input_loudness" (fmtMetric m)
        | none => result
      let result := match inp.snr with
        | some m => dictInsert result "input_snr" (fmtMetric m)
        | none => result
      let result := match out.loudness with
        | some m => dictInsert result "output_loudness" (fmtMetric m)
        | none => result
      let result := match out.peak with
        | some m => dictInsert result "output_peak" (fmtMetric m)
        | none => result
      let result := match stats.cuts with
        | some cuts =>
            cuts.foldl (fun r c => dictInsert r ("cuts_" ++ c.name) (fmtCut c)) result
        | none => result
      if result = [] then none else some result

/-! ## Submitter (`upload_and_start`, lines 112-138)

The outcome of the single POST is the input: its transport status code and parsed
body.  The two `sys.exit(1)` branches become `Except.error`; on success the
function returns `body["data"]`. -/

/-- Python truthiness of `body.get("error_code")` (line 134): an absent key
and an empty string are falsy. -/
def strTruthy (o : Option String) : Bool :=
  match o with
  | none => false
  | some s => s ≠ ""

/-- The parsed body of the submission response.  `data` is indexed directly
(`body["data"]`, line 138), so it is a mandatory field. -/
structure UploadBody where
  error_code : Option String
  error_message : Option String
  data : ProductionData
deriving DecidableEq

structure UploadResponse where
  status_code : Nat
  body : UploadBody
deriving DecidableEq

def upload_and_start (resp : UploadResponse) : Except String ProductionData :=
  if resp.status_code ≠ 200 then
    .error ("Auphonic API returned " ++ toString resp.status_code)
  else if strTruthy resp.body.error_code then
    .error (resp.body.error_message.getD "Unknown error")
  else .ok resp.body.data

/-! ## Run summary (`main`, lines 300-322)

After a successful poll, `main` downloads, updates the index, extracts stats
and always emits a summary whose `status` field is "ok"; none of those steps
can abort the run. -/

structure Summary where
  status : String
  production_uuid : String
  preset : String
  input_file : String
  output_files : List Downloaded
  duration : String
  warnings : Option String
  audio_stats : Option (List (String × String))
deriving DecidableEq

/-- The summary object of lines 310-320; `"" or None` at line 317 maps an
empty warning text to an absent field, and `audio_stats` is included only
when `extract_stats` returned something (line 319). -/
def buildSummary (production_uuid preset input_file : String)
    (downloaded : List Downloaded) (duration warning_message : String)
    (audio_stats : Option (List (String × String))) : Summary where
  status := "ok"
  production_uuid := production_uuid
  preset := preset
  input_file := input_file
  output_files := downloaded
  duration := duration
  warnings := if warning_message = "" then none else some warning_message
  audio_stats := audio_stats

/-- Lines 300-322 of `main`: everything after `poll_status` returned a
succeeded snapshot `data`.  `outDir` is the download destination relative to
the repo root and `output_dir` the per-project subdirectory used for index
keys.  Total: a per-artifact download failure cannot abort the run. -/
def mainAfterSuccess (fetch : String → Nat) (today production_uuid preset
    input_file outDir output_dir : String) (data : ProductionData)
    (index : Index) : Summary × Index :=
  let run := download_results fetch outDir data.output_files
  let idx := update_index today production_uuid output_dir run.downloaded index
  let stats := extract_stats data.statistics
  (buildSummary production_uuid preset input_file run.downloaded
    (data.length_timestring.getD "") (data.warning_message.getD "") stats, idx)

/-! ## Poller lemmas -/

lemma pollStep_done {r : PollResponse} {d : ProductionData}
    (h : pollStep r = .done d) : d.status = some STATUS_DONE := by
  unfold pollStep at h
  split at h
  · simp at h
  · split at h
    · split at h
      · next s hs heq => cases h; rw [hs, heq]
      · split at h <;> simp_all
    · simp at h

lemma pollStep_not200 {r : PollResponse} (h : r.status_code ≠ 200) :
    pollStep r = .running := by
  unfold pollStep
  rw [if_pos h]

/-- A still-running classification makes one loop iteration recurse with the
counter advanced by exactly one interval. -/
lemma pollLoop_running_step {responses : Nat → PollResponse} {i waited : Nat}
    (hw : waited < MAX_POLL_TIME) (hstep : pollStep (responses i) = .running) :
    pollLoop responses i waited = pollLoop responses (i + 1) (waited + POLL_INTERVAL) := by
  rw [pollLoop, dif_pos hw, hstep]

lemma pollLoop_succeeded_status (responses : Nat → PollResponse) (i waited : Nat) :
    ∀ d, (pollLoop responses i waited).outcome = .succeeded d →
      d.status = some STATUS_DONE := by
  refine pollLoop.induct responses
    (fun i waited => ∀ d, (pollLoop responses i waited).outcome = .succeeded d →
      d.status = some STATUS_DONE) ?_ ?_ ?_ ?_ i waited
  · intro i waited hw _w hstep ih d hout
    rw [pollLoop_running_step hw hstep] at hout
    exact ih d hout
  · intro i waited hw d0 hstep d hout
    rw [pollLoop, dif_pos hw, hstep] at hout
    simp only [PollOutcome.succeeded.injEq] at hout
    rw [← hout]
    exact pollStep_done hstep
  · intro i waited hw m hstep d hout
    rw [pollLoop, dif_pos hw, hstep] at hout
    simp at hout
  · intro i waited hw d hout
    rw [pollLoop, dif_neg hw] at hout
    simp at hout

/-- Reachable `waited` values stay interval-aligned and never pass the
maximum wait. -/
lemma pollLoop_waited_bound (responses : Nat → PollResponse) (i waited : Nat)
    (hd : POLL_INTERVAL ∣ waited) (hle : waited ≤ MAX_POLL_TIME) :
    (pollLoop responses i waited).waited ≤ MAX_POLL_TIME ∧
      POLL_INTERVAL ∣ (pollLoop responses i waited).waited := by
  refine pollLoop.induct responses
    (fun i waited => POLL_INTERVAL ∣ waited → waited ≤ MAX_POLL_TIME →
      (pollLoop responses i waited).waited ≤ MAX_POLL_TIME ∧
        POLL_INTERVAL ∣ (pollLoop responses i waited).waited)
    ?_ ?_ ?_ ?_ i waited hd hle
  · intro i waited hw w hstep ih hd hle
    have hww : w = waited + POLL_INTERVAL := rfl
    rw [pollLoop_running_step hw hstep]
    refine ih ?_ ?_
    · simp only [POLL_INTERVAL, MAX_POLL_TIME] at hww hd hw ⊢; omega
    · simp only [POLL_INTERVAL, MAX_POLL_TIME] at hww hd hw ⊢; omega
  · intro i waited hw d hstep hd hle
    rw [pollLoop, dif_pos hw, hstep]
    simp only [POLL_INTERVAL, MAX_POLL_TIME] at hd hw ⊢
    omega
  · intro i waited hw m hstep hd hle
    rw [pollLoop, dif_pos hw, hstep]
    simp only [POLL_INTERVAL, MAX_POLL_TIME] at hd hw ⊢
    omega
  · intro i waited hw hd hle
    rw [pollLoop, dif_neg hw]
    exact ⟨hle, hd⟩

/-- Each query costs exactly one interval of waiting: the quantity
`POLL_INTERVAL * queries - waited` is conserved by the loop. -/
lemma pollLoop_queries_linear (responses : Nat → PollResponse) (i waited : Nat) :
    POLL_INTERVAL * (pollLoop responses i waited).queries + waited =
      POLL_INTERVAL * i + (pollLoop responses i waited).waited := by
  refine pollLoop.induct responses
    (fun i waited => POLL_INTERVAL * (pollLoop responses i waited).queries + waited =
      POLL_INTERVAL * i + (pollLoop responses i waited).waited) ?_ ?_ ?_ ?_ i waited
  · intro i waited hw w hstep ih
    have hww : w = waited + POLL_INTERVAL := rfl
    rw [pollLoop_running_step hw hstep]
    rw [hww] at ih
    simp only [POLL_INTERVAL] at ih ⊢
    omega
  · intro i waited hw d hstep
    rw [pollLoop, dif_pos hw, hstep]
    simp only [POLL_INTERVAL]
    ring
  · intro i waited hw m hstep
    rw [pollLoop, dif_pos hw, hstep]
    simp only [POLL_INTERVAL]
    ring
  · intro i waited hw
    rw [pollLoop, dif_neg hw]

lemma pollLoop_allfail_timedOut (responses : Nat → PollResponse)
    (hfail : ∀ n, (responses n).status_code ≠ 200) (i waited : Nat) :
    (pollLoop responses i waited).outcome = .timedOut := by
  refine pollLoop.induct responses
    (fun i waited => (pollLoop responses i waited).outcome = .timedOut) ?_ ?_ ?_ ?_ i waited
  · intro i waited hw _w hstep ih
    rw [pollLoop_running_step hw hstep]
    exact ih
  · intro i waited hw d hstep
    rw [pollStep_not200 (hfail i)] at hstep
    cases hstep
  · intro i waited hw m hstep
    rw [pollStep_not200 (hfail i)] at hstep
    cases hstep
  · intro i waited hw
    rw [pollLoop, dif_neg hw]

/-! ## Claim theorems about the Poller -/

/-- C1: `poll_status` returns a terminal snapshot only when the queried
numeric status code equals the designated succeeded code (3), and the total
time it waits (the final value of the `waited` counter, equal to the sum of
the sleeps performed) never exceeds the maximum wait plus one poll interval,
for every sequence of status responses. -/
theorem poll_success_only_on_done_and_wait_bounded (responses : Nat → PollResponse) :
    (∀ d, (poll_status responses).outcome = .succeeded d →
      d.status = some STATUS_DONE)
    ∧ (poll_status responses).waited ≤ MAX_POLL_TIME + POLL_INTERVAL := by
  constructor
  · exact pollLoop_succeeded_status responses 0 0
  · have h := pollLoop_waited_bound responses 0 0 (Dvd.intro 0 rfl) (Nat.zero_le _)
    exact le_trans h.1 (Nat.le_add_right _ _)

def wDoneData : ProductionData :=
  { emptyProductionData with uuid := "p1", status := some STATUS_DONE }

def wDoneResponses : Nat → PollResponse := fun _ => ⟨200, wDoneData⟩

theorem poll_success_only_on_done_and_wait_bounded_witness :
    wDoneData.status = some STATUS_DONE ∧
      (poll_status wDoneResponses).waited ≤ MAX_POLL_TIME + POLL_INTERVAL :=
  ⟨(poll_success_only_on_done_and_wait_bounded wDoneResponses).1 wDoneData
      (by
        rw [poll_status, pollLoop]
        simp [pollStep, wDoneResponses, wDoneData, MAX_POLL_TIME]),
    (poll_success_only_on_done_and_wait_bounded wDoneResponses).2⟩

/-- C5: a 200 status query whose numeric code is not classified as terminal
(any code outside 3, 9, 13) is treated as still running, and the iteration
continues the loop with the elapsed-time counter advanced by exactly one
poll interval. -/
theorem poll_nonterminal_code_continues (responses : Nat → PollResponse)
    (i waited : Nat) (s : Int) (hw : waited < MAX_POLL_TIME)
    (h200 : (responses i).status_code = 200)
    (hs : (responses i).data.status = some s)
    (h3 : s ≠ STATUS_DONE) (h9 : s ≠ STATUS_ERROR) (h13 : s ≠ STATUS_INCOMPLETE) :
    pollStep (responses i) = .running ∧
      pollLoop responses i waited = pollLoop responses (i + 1) (waited + POLL_INTERVAL) := by
  have hstep : pollStep (responses i) = .running := by
    unfold pollStep
    rw [if_neg (by simp [h200]), hs]
    simp [h3, h9, h13]
  exact ⟨hstep, pollLoop_running_step hw hstep⟩

def wRunningData : ProductionData :=
  { emptyProductionData with uuid := "p1", status := some 5 }

def wRunningResponses : Nat → PollResponse := fun _ => ⟨200, wRunningData⟩

theorem poll_nonterminal_code_continues_witness :
    pollStep (wRunningResponses 0) = .running ∧
      pollLoop wRunningResponses 0 0 = pollLoop wRunningResponses (0 + 1) (0 + POLL_INTERVAL) :=
  poll_nonterminal_code_continues wRunningResponses 0 0 5 (by decide) rfl rfl
    (by decide) (by decide) (by decide)

/-- C6: a status query failing at the transport level (non-200) is transient:
the loop continues without changing terminal classification, with the counter
advanced by one interval; and the elapsed-time deadline still bounds the
number of queries, so a run whose every status query fails terminates as
timed out after at most `MAX_POLL_TIME / POLL_INTERVAL` queries. -/
theorem poll_transport_failure_transient_and_bounded (responses : Nat → PollResponse) :
    (∀ i waited, waited < MAX_POLL_TIME → (responses i).status_code ≠ 200 →
        pollStep (responses i) = .running ∧
          pollLoop responses i waited = pollLoop responses (i + 1) (waited + POLL_INTERVAL))
    ∧ ((∀ n, (responses n).status_code ≠ 200) →
        (poll_status responses).outcome = .timedOut ∧
          (poll_status responses).queries ≤ MAX_POLL_TIME / POLL_INTERVAL) := by
  constructor
  · intro i waited hw hfail
    have hstep := pollStep_not200 hfail
    exact ⟨hstep, pollLoop_running_step hw hstep⟩
  · intro hfail
    refine ⟨pollLoop_allfail_timedOut responses hfail 0 0, ?_⟩
    have hlin := pollLoop_queries_linear responses 0 0
    have hbd := pollLoop_waited_bound responses 0 0 (Dvd.intro 0 rfl) (Nat.zero_le _)
    rw [poll_status]
    simp only [POLL_INTERVAL, MAX_POLL_TIME] at hlin hbd ⊢
    omega

def wFailResponses : Nat → PollResponse := fun _ => ⟨500, emptyProductionData⟩

theorem poll_transport_failure_transient_and_bounded_witness :
    (pollStep (wFailResponses 0) = .running ∧
      pollLoop wFailResponses 0 0 = pollLoop wFailResponses (0 + 1) (0 + POLL_INTERVAL)) ∧
    ((poll_status wFailResponses).outcome = .timedOut ∧
      (poll_status wFailResponses).queries ≤ MAX_POLL_TIME / POLL_INTERVAL) :=
  ⟨(poll_transport_failure_transient_and_bounded wFailResponses).1 0 0
      (by decide) (by decide),
    (poll_transport_failure_transient_and_bounded wFailResponses).2
      (fun n => by simp [wFailResponses])⟩

/-! ## Downloader lemmas -/

lemma downloadRun_ext {a b : DownloadRun} (h1 : a.downloaded = b.downloaded)
    (h2 : a.warnings = b.warnings) (h3 : a.written = b.written) : a = b := by
  cases a; cases b
  simp_all

/-- One accumulator step only appends to the three lists. -/
lemma dlStep_acc (fetch : String → Nat) (outDir : String) (acc : DownloadRun)
    (of : OutputFile) :
    (dlStep fetch outDir acc of).downloaded =
        acc.downloaded ++ (dlStep fetch outDir emptyDownloadRun of).downloaded
    ∧ (dlStep fetch outDir acc of).warnings =
        acc.warnings ++ (dlStep fetch outDir emptyDownloadRun of).warnings
    ∧ (dlStep fetch outDir acc of).written =
        acc.written ++ (dlStep fetch outDir emptyDownloadRun of).written := by
  unfold dlStep
  cases processArtifact fetch outDir of <;> simp [emptyDownloadRun]

/-- The fold result is its accumulator followed by the fold from empty. -/
lemma download_foldl_acc (fetch : String → Nat) (outDir : String) :
    ∀ (xs : List OutputFile) (acc : DownloadRun),
      (xs.foldl (dlStep fetch outDir) acc).downloaded =
          acc.downloaded ++ (download_results fetch outDir xs).downloaded
      ∧ (xs.foldl (dlStep fetch outDir) acc).warnings =
          acc.warnings ++ (download_results fetch outDir xs).warnings
      ∧ (xs.foldl (dlStep fetch outDir) acc).written =
          acc.written ++ (download_results fetch outDir xs).written := by
  intro xs
  induction xs with
  | nil =>
    intro acc
    simp [download_results, emptyDownloadRun]
  | cons x xs ih =>
    intro acc
    have hx := dlStep_acc fetch outDir acc x
    have hempty := dlStep_acc fetch outDir emptyDownloadRun x
    have h1 := ih (dlStep fetch outDir acc x)
    have h2 := ih (dlStep fetch outDir emptyDownloadRun x)
    simp only [download_results, List.foldl_cons] at h1 h2 ⊢
    rw [h1.1, h1.2.1, h1.2.2, hx.1, hx.2.1, hx.2.2, h2.1, h2.2.1, h2.2.2]
    simp [List.append_assoc]

/-- Runs of `download_results` distribute over list concatenation, componentwise. -/
lemma download_results_append (fetch : String → Nat) (outDir : String)
    (xs ys : List OutputFile) :
    (download_results fetch outDir (xs ++ ys)).downloaded =
        (download_results fetch outDir xs).downloaded
          ++ (download_results fetch outDir ys).downloaded
    ∧ (download_results fetch outDir (xs ++ ys)).warnings =
        (download_results fetch outDir xs).warnings
          ++ (download_results fetch outDir ys).warnings
    ∧ (download_results fetch outDir (xs ++ ys)).written =
        (download_results fetch outDir xs).written
          ++ (download_results fetch outDir ys).written := by
  have h := download_foldl_acc fetch outDir ys (download_results fetch outDir xs)
  simp only [download_results, List.foldl_append] at h ⊢
  exact h

/-- One artifact alone contributes exactly its processing outcome. -/
lemma download_results_single (fetch : String → Nat) (outDir : String)
    (of : OutputFile) :
    download_results fetch outDir [of] = dlStep fetch outDir emptyDownloadRun of := by
  simp [download_results]

/-- An artifact whose step leaves the accumulator unchanged can be removed
from anywhere in the list without changing the run. -/
lemma download_results_noop_middle (fetch : String → Nat) (outDir : String)
    (of : OutputFile) (l r : List OutputFile)
    (h : ∀ acc, dlStep fetch outDir acc of = acc) :
    download_results fetch outDir (l ++ of :: r) =
      download_results fetch outDir (l ++ r) := by
  simp only [download_results, List.foldl_append, List.foldl_cons, h]

/-! ## Claim theorems about the Downloader -/

/-- C3: for every output artifact whose format tag is in the fixed deny-list,
the per-artifact processing writes no file; and the returned `downloaded`
list is never longer than the `output_files` list of the snapshot. -/
theorem download_denylist_never_written_and_length_le (fetch : String → Nat)
    (outDir : String) (output_files : List OutputFile) :
    (∀ of ∈ output_files, of.format.getD "" ∈ DENY_FORMATS →
        writesFile (processArtifact fetch outDir of) = false)
    ∧ (download_results fetch outDir output_files).downloaded.length ≤
        output_files.length := by
  constructor
  · intro of _ hf
    unfold processArtifact
    by_cases hfal : strFalsy of.download_url ∨ strFalsy of.filename
    · simp [hfal, writesFile]
    · simp [hfal, hf, writesFile]
  · induction output_files with
    | nil => simp [download_results, emptyDownloadRun]
    | cons x xs ih =>
      have hx : (download_results fetch outDir [x]).downloaded.length ≤ 1 := by
        rw [download_results_single]
        unfold dlStep
        cases processArtifact fetch outDir x <;> simp [emptyDownloadRun]
      have happ := (download_results_append fetch outDir [x] xs).1
      rw [List.singleton_append] at happ
      rw [happ, List.length_append, List.length_cons]
      omega

def wFetch200 : String → Nat := fun _ => 200

def wDenyFile : OutputFile :=
  ⟨some "https://auphonic.com/x/stats.json", some "stats.json", some "stats", some "1 kB"⟩

theorem download_denylist_never_written_and_length_le_witness :
    writesFile (processArtifact wFetch200 "projects/p/audio/optimized" wDenyFile) = false
    ∧ (download_results wFetch200 "projects/p/audio/optimized" [wDenyFile]).downloaded.length ≤
        [wDenyFile].length :=
  ⟨(download_denylist_never_written_and_length_le wFetch200
      "projects/p/audio/optimized" [wDenyFile]).1 wDenyFile (by decide) (by decide),
    (download_denylist_never_written_and_length_le wFetch200
      "projects/p/audio/optimized" [wDenyFile]).2⟩

/-- C10: an output artifact whose descriptor lacks a (truthy) download URL or
filename is skipped silently, even when its format is not deny-listed: its
processing writes nothing and emits no warning, and removing it from the
`output_files` list leaves the entire run result unchanged. -/
theorem download_missing_locator_silent_skip (fetch : String → Nat)
    (outDir : String) (of : OutputFile) (l r : List OutputFile)
    (hmiss : strFalsy of.download_url ∨ strFalsy of.filename) :
    processArtifact fetch outDir of = .skipped ∧
      download_results fetch outDir (l ++ of :: r) =
        download_results fetch outDir (l ++ r) := by
  have hskip : processArtifact fetch outDir of = .skipped := by
    unfold processArtifact
    rw [if_pos hmiss]
  refine ⟨hskip, download_results_noop_middle fetch outDir of l r ?_⟩
  intro acc
  unfold dlStep
  rw [hskip]

def wNoUrlFile : OutputFile := ⟨none, some "result.mp3", some "mp3", some "2 MB"⟩

theorem download_missing_locator_silent_skip_witness :
    processArtifact wFetch200 "projects/p/audio/optimized" wNoUrlFile = .skipped ∧
      download_results wFetch200 "projects/p/audio/optimized" ([] ++ wNoUrlFile :: []) =
        download_results wFetch200 "projects/p/audio/optimized" ([] ++ []) :=
  download_missing_locator_silent_skip wFetch200 "projects/p/audio/optimized"
    wNoUrlFile [] [] (by decide)

/-- C4: a per-artifact transport failure is non-fatal: the failed artifact is
omitted from the returned `downloaded` list (which equals the run without
it), a warning naming it and the HTTP code is emitted, and the remainder of
`main` still produces a summary whose status is "ok" whatever the fetch
oracle does. -/
theorem download_transport_failure_nonfatal (fetch : String → Nat)
    (outDir : String) (a : OutputFile) (l r : List OutputFile)
    (hurl : strFalsy a.download_url = false) (hfn : strFalsy a.filename = false)
    (hfmt : a.format.getD "" ∉ DENY_FORMATS)
    (hfail : fetch (a.download_url.getD "") ≠ 200) :
    (download_results fetch outDir (l ++ a :: r)).downloaded =
        (download_results fetch outDir (l ++ r)).downloaded
    ∧ (a.filename.getD "", fetch (a.download_url.getD "")) ∈
        (download_results fetch outDir (l ++ a :: r)).warnings
    ∧ ∀ (today production_uuid preset input_file output_dir : String)
        (data : ProductionData) (index : Index),
        (mainAfterSuccess fetch today production_uuid preset input_file outDir
          output_dir data index).1.status = "ok" := by
  have hproc : processArtifact fetch outDir a =
      .fetchFailed (a.filename.getD "") (fetch (a.download_url.getD "")) := by
    unfold processArtifact
    rw [if_neg (by simp [hurl, hfn]), if_neg hfmt, if_pos hfail]
  have hstep : ∀ acc, dlStep fetch outDir acc a =
      { acc with warnings :=
          acc.warnings ++ [(a.filename.getD "", fetch (a.download_url.getD ""))] } := by
    intro acc
    unfold dlStep
    rw [hproc]
  refine ⟨?_, ?_, ?_⟩
  · simp only [download_results, List.foldl_append, List.foldl_cons, hstep]
    rw [(download_foldl_acc fetch outDir r _).1, (download_foldl_acc fetch outDir r _).1]
  · simp only [download_results, List.foldl_append, List.foldl_cons, hstep]
    rw [(download_foldl_acc fetch outDir r _).2.1]
    simp
  · intro today production_uuid preset input_file output_dir data index
    rfl

def wGoodFile : OutputFile :=
  ⟨some "https://auphonic.com/dl/a.mp3", some "a.mp3", some "mp3", some "1 MB"⟩

def wBadFile : OutputFile :=
  ⟨some "https://auphonic.com/dl/b.mp3", some "b.mp3", some "mp3", some "2 MB"⟩

def wFetchBfails : String → Nat :=
  fun u => if u = "https://auphonic.com/dl/b.mp3" then 500 else 200

theorem download_transport_failure_nonfatal_witness :
    (download_results wFetchBfails "projects/p/audio/optimized"
        ([wGoodFile] ++ wBadFile :: [])).downloaded =
      (download_results wFetchBfails "projects/p/audio/optimized"
        ([wGoodFile] ++ [])).downloaded
    ∧ (wBadFile.filename.getD "", wFetchBfails (wBadFile.download_url.getD "")) ∈
        (download_results wFetchBfails "projects/p/audio/optimized"
          ([wGoodFile] ++ wBadFile :: [])).warnings
    ∧ ∀ (today production_uuid preset input_file output_dir : String)
        (data : ProductionData) (index : Index),
        (mainAfterSuccess wFetchBfails today production_uuid preset input_file
          "projects/p/audio/optimized" output_dir data index).1.status = "ok" :=
  download_transport_failure_nonfatal wFetchBfails "projects/p/audio/optimized"
    wBadFile [wGoodFile] [] (by decide) (by decide) (by decide) (by decide)

/-! ## Index reconciler lemmas -/

/-- The last element of `downloaded` whose index key is `k`; its `format`
is the one that ends up in the `origin` of the merged entry. -/
def lastMatch? (output_dir : String) : List Downloaded → String → Option Downloaded
  | [], _ => none
  | dl :: dls, k =>
    match lastMatch? output_dir dls k with
    | some d => some d
    | none => if k = indexKey output_dir dl then some dl else none

/-- Re-merging an already-merged entry in a later run (same production and
format, any later date) changes nothing. -/
lemma updateEntry_stable (t1 t2 u f : String) (e : IndexEntry) :
    updateEntry t2 u f (updateEntry t1 u f e) = updateEntry t1 u f e := by
  simp [updateEntry]

/-- Within one run, a second merge of the same key keeps everything but the
`origin` format of the later artifact. -/
lemma updateEntry_absorb (t u f1 f2 : String) (e : IndexEntry) :
    updateEntry t u f2 (updateEntry t u f1 e) = updateEntry t u f2 e := by
  simp [updateEntry]

/-- What `update_index` leaves at each key: untouched keys keep their prior
entry; a key of some downloaded artifact holds the prior entry (or the empty
one) merged once, with the format of the last artifact having that key. -/
lemma update_index_lookup (t u dir : String) (dls : List Downloaded) (idx : Index)
    (k : String) :
    update_index t u dir dls idx k =
      match lastMatch? dir dls k with
      | none => idx k
      | some dl => some (updateEntry t u dl.format ((idx k).getD emptyIndexEntry)) := by
  induction dls generalizing idx with
  | nil => rfl
  | cons dl dls ih =>
    have hstep : update_index t u dir (dl :: dls) idx =
        update_index t u dir dls
          (fun k2 => if k2 = indexKey dir dl then
              some (updateEntry t u dl.format
                ((idx (indexKey dir dl)).getD emptyIndexEntry))
            else idx k2) := rfl
    rw [hstep, ih]
    cases hlm : lastMatch? dir dls k with
    | some d =>
      simp only [lastMatch?, hlm]
      by_cases hk : k = indexKey dir dl
      · simp [hk, updateEntry_absorb]
      · simp only [if_neg hk]
    | none =>
      simp only [lastMatch?, hlm]
      by_cases hk : k = indexKey dir dl
      · simp [hk]
      · simp only [if_neg hk]

/-! ## Claim theorem about the IndexReconciler merge -/

/-- C2: running the merge twice with the same artifact list (the second run
possibly on a later date) gives, at every key, the same index as running it
once; any pre-existing non-empty description or notes value survives both
runs; a pre-existing `added` date is never overwritten, and `added` is set
to the run date exactly for merged keys that lacked it. -/
theorem update_index_idempotent_and_preserves (t1 t2 u dir : String)
    (dls : List Downloaded) (idx : Index) :
    (∀ k, update_index t2 u dir dls (update_index t1 u dir dls idx) k =
        update_index t1 u dir dls idx k)
    ∧ (∀ k d, (idx k).bind IndexEntry.description = some d → d ≠ "" →
        (update_index t1 u dir dls idx k).bind IndexEntry.description = some d ∧
        (update_index t2 u dir dls (update_index t1 u dir dls idx) k).bind
          IndexEntry.description = some d)
    ∧ (∀ k n, (idx k).bind IndexEntry.notes = some n → n ≠ "" →
        (update_index t1 u dir dls idx k).bind IndexEntry.notes = some n ∧
        (update_index t2 u dir dls (update_index t1 u dir dls idx) k).bind
          IndexEntry.notes = some n)
    ∧ (∀ k a, (idx k).bind IndexEntry.added = some a →
        (update_index t1 u dir dls idx k).bind IndexEntry.added = some a)
    ∧ (∀ k dl, lastMatch? dir dls k = some dl →
        (idx k).bind IndexEntry.added = none →
        (update_index t1 u dir dls idx k).bind IndexEntry.added = some t1) := by
  have hidem : ∀ k, update_index t2 u dir dls (update_index t1 u dir dls idx) k =
      update_index t1 u dir dls idx k := by
    intro k
    rw [update_index_lookup t2, update_index_lookup t1]
    cases hlm : lastMatch? dir dls k with
    | none => rfl
    | some dl => simp [updateEntry_stable]
  refine ⟨hidem, ?_, ?_, ?_, ?_⟩
  · intro k d hd hne
    have h1 : (update_index t1 u dir dls idx k).bind IndexEntry.description = some d := by
      rw [update_index_lookup t1]
      cases hlm : lastMatch? dir dls k with
      | none => exact hd
      | some dl =>
        cases hidx : idx k with
        | none => simp [hidx] at hd
        | some e =>
          simp only [hidx, Option.bind] at hd
          simp [updateEntry, hd]
    exact ⟨h1, by rw [hidem k]; exact h1⟩
  · intro k n hn hne
    have h1 : (update_index t1 u dir dls idx k).bind IndexEntry.notes = some n := by
      rw [update_index_lookup t1]
      cases hlm : lastMatch? dir dls k with
      | none => exact hn
      | some dl =>
        cases hidx : idx k with
        | none => simp [hidx] at hn
        | some e =>
          simp only [hidx, Option.bind] at hn
          simp [updateEntry, hn]
    exact ⟨h1, by rw [hidem k]; exact h1⟩
  · intro k a ha
    rw [update_index_lookup t1]
    cases hlm : lastMatch? dir dls k with
    | none => exact ha
    | some dl =>
      cases hidx : idx k with
      | none => simp [hidx] at ha
      | some e =>
        simp only [hidx, Option.bind] at ha
        simp [updateEntry, ha]
  · intro k dl hlm ha
    rw [update_index_lookup t1, hlm]
    cases hidx : idx k with
    | none => simp [updateEntry, emptyIndexEntry]
    | some e =>
      simp only [hidx, Option.bind] at ha
      simp [updateEntry, ha]

def wIndexEntryA : IndexEntry :=
  ⟨some "2025-01-01", some "audio", some "Interview, raw cut", some "keep",
    none⟩

def wIndex : Index :=
  fun k => if k = "audio/optimized/a.mp3" then some wIndexEntryA else none

def wDlA : Downloaded :=
  ⟨"a.mp3", "mp3", "1 MB", "projects/p/audio/optimized/a.mp3"⟩

def wDlB : Downloaded :=
  ⟨"b.mp3", "mp3", "2 MB", "projects/p/audio/optimized/b.mp3"⟩

theorem update_index_idempotent_and_preserves_witness :
    (update_index "2026-10-13" "prod-1" "audio/optimized" [wDlA, wDlB]
        (update_index "2026-10-12" "prod-1" "audio/optimized" [wDlA, wDlB] wIndex)
        "audio/optimized/a.mp3" =
      update_index "2026-10-12" "prod-1" "audio/optimized" [wDlA, wDlB] wIndex
        "audio/optimized/a.mp3")
    ∧ ((update_index "2026-10-12" "prod-1" "audio/optimized" [wDlA, wDlB] wIndex
          "audio/optimized/a.mp3").bind IndexEntry.description =
        some "Interview, raw cut")
    ∧ ((update_index "2026-10-12" "prod-1" "audio/optimized" [wDlA, wDlB] wIndex
          "audio/optimized/a.mp3").bind IndexEntry.added = some "2025-01-01")
    ∧ ((update_index "2026-10-12" "prod-1" "audio/optimized" [wDlA, wDlB] wIndex
          "audio/optimized/b.mp3").bind IndexEntry.added = some "2026-10-12") := by
  have h := update_index_idempotent_and_preserves "2026-10-12" "2026-10-13"
    "prod-1" "audio/optimized" [wDlA, wDlB] wIndex
  refine ⟨h.1 "audio/optimized/a.mp3", ?_, ?_, ?_⟩
  · exact (h.2.1 "audio/optimized/a.mp3" "Interview, raw cut" (by decide)
      (by decide)).1
  · exact h.2.2.2.1 "audio/optimized/a.mp3" "2025-01-01" (by decide)
  · exact h.2.2.2.2 "audio/optimized/b.mp3" wDlB (by decide) (by decide)

/-! ## Stats extractor lemmas -/

lemma dictInsert_fresh (d : List (String × String)) (k v : String)
    (h : d.any (fun p => p.1 = k) = false) : dictInsert d k v = d ++ [(k, v)] := by
  simp [dictInsert, h]

/-- The key of a cuts entry never collides with the four fixed metric keys. -/
lemma fixed_key_ne_cuts (k n : String)
    (hk : k = "input_loudness" ∨ k = "input_snr" ∨ k = "output_loudness" ∨
      k = "output_peak") : ¬ (k = "cuts_" ++ n) := by
  intro h
  have hd := congrArg String.data h
  rw [String.data_append] at hd
  have hc : ("cuts_" : String).data = ['c', 'u', 't', 's', '_'] := rfl
  rw [hc] at hd
  rcases hk with hk | hk | hk | hk
  all_goals rw [hk] at hd; simp at hd

/-- Folding the cuts over an accumulator whose keys avoid all cuts keys just
appends one entry per cut, provided the cut keys are distinct. -/
lemma cuts_fold_append (cuts : List Cut) (acc : List (String × String))
    (hfresh : ∀ c ∈ cuts, acc.any (fun p => p.1 = "cuts_" ++ c.name) = false)
    (hnodup : (cuts.map (fun c => "cuts_" ++ c.name)).Nodup) :
    cuts.foldl (fun r c => dictInsert r ("cuts_" ++ c.name) (fmtCut c)) acc =
      acc ++ cuts.map (fun c => ("cuts_" ++ c.name, fmtCut c)) := by
  induction cuts generalizing acc with
  | nil => simp
  | cons c cuts ih =>
    simp only [List.foldl_cons]
    rw [dictInsert_fresh acc _ _ (hfresh c (List.mem_cons_self c cuts))]
    rw [List.map_cons, List.nodup_cons] at hnodup
    rw [ih (acc ++ [("cuts_" ++ c.name, fmtCut c)]) ?_ hnodup.2]
    · simp
    · intro c2 hc2
      rw [List.any_append]
      rw [hfresh c2 (List.mem_cons_of_mem c hc2)]
      simp only [Bool.false_or, List.any_cons, List.any_nil, Bool.or_false]
      have : ¬ ("cuts_" ++ c.name = "cuts_" ++ c2.name) := by
        intro he
        have hd := congrArg String.data he
        rw [String.data_append, String.data_append] at hd
        have hne := String.ext (List.append_cancel_left hd)
        exact hnodup.1 (hne ▸ List.mem_map_of_mem (fun c => "cuts_" ++ c.name) hc2)
      simp [this]

/-! ## Claim theorem about the StatsExtractor -/

/-- C7: `extract_stats` is absent (`none`, not an empty container) when the
statistics are missing, when they have no truthy `levels` key, or when no
metric field is present at all; and on full data it returns exactly one
entry per loudness/peak/SNR field plus one entry per listed cut type. -/
theorem extract_stats_absent_and_full :
    extract_stats none = none
    ∧ (∀ stats : Statistics, stats.levels = none → extract_stats (some stats) = none)
    ∧ (∀ (stats : Statistics) (levels : Levels), stats.levels = some levels →
        (levels.input.getD emptyLevelSide).loudness = none →
        (levels.input.getD emptyLevelSide).snr = none →
        (levels.output.getD emptyLevelSide).loudness = none →
        (levels.output.getD emptyLevelSide).peak = none →
        stats.cuts.getD [] = [] →
        extract_stats (some stats) = none)
    ∧ (∀ (stats : Statistics) (levels : Levels) (li si lo po : MetricPair)
        (cuts : List Cut), stats.levels = some levels →
        (levels.input.getD emptyLevelSide).loudness = some li →
        (levels.input.getD emptyLevelSide).snr = some si →
        (levels.output.getD emptyLevelSide).loudness = some lo →
        (levels.output.getD emptyLevelSide).peak = some po →
        stats.cuts = some cuts →
        (cuts.map (fun c => "cuts_" ++ c.name)).Nodup →
        extract_stats (some stats) =
          some ([("input_loudness", fmtMetric li), ("input_snr", fmtMetric si),
                ("output_loudness", fmtMetric lo), ("output_peak", fmtMetric po)]
            ++ cuts.map (fun c => ("cuts_" ++ c.name, fmtCut c)))
        ∧ (extract_stats (some stats)).map List.length = some (4 + cuts.length)) := by
  refine ⟨rfl, ?_, ?_, ?_⟩
  · intro stats hls
    simp [extract_stats, hls]
  · intro stats levels hls h1 h2 h3 h4 hcuts
    cases hc : stats.cuts with
    | none => simp [extract_stats, hls, h1, h2, h3, h4, hc]
    | some l =>
      rw [hc] at hcuts
      simp only [Option.getD_some] at hcuts
      simp [extract_stats, hls, h1, h2, h3, h4, hc, hcuts]
  · intro stats levels li si lo po cuts hls h1 h2 h3 h4 hc hnodup
    have hmain : extract_stats (some stats) =
        some ([("input_loudness", fmtMetric li), ("input_snr", fmtMetric si),
              ("output_loudness", fmtMetric lo), ("output_peak", fmtMetric po)]
          ++ cuts.map (fun c => ("cuts_" ++ c.name, fmtCut c))) := by
      simp only [extract_stats, hls, h1, h2, h3, h4, hc]
      have hfold := cuts_fold_append cuts
        [("input_loudness", fmtMetric li), ("input_snr", fmtMetric si),
          ("output_loudness", fmtMetric lo), ("output_peak", fmtMetric po)]
        ?_ hnodup
      · rw [show dictInsert (dictInsert (dictInsert
            (dictInsert [] "input_loudness" (fmtMetric li))
            "input_snr" (fmtMetric si)) "output_loudness" (fmtMetric lo))
            "output_peak" (fmtMetric po) =
            [("input_loudness", fmtMetric li), ("input_snr", fmtMetric si),
              ("output_loudness", fmtMetric lo), ("output_peak", fmtMetric po)]
          from rfl]
        rw [hfold]
        simp
      · intro c _
        simp only [List.any_cons, List.any_nil, Bool.or_false]
        have e1 := fixed_key_ne_cuts "input_loudness" c.name (Or.inl rfl)
        have e2 := fixed_key_ne_cuts "input_snr" c.name (Or.inr (Or.inl rfl))
        have e3 := fixed_key_ne_cuts "output_loudness" c.name
          (Or.inr (Or.inr (Or.inl rfl)))
        have e4 := fixed_key_ne_cuts "output_peak" c.name
          (Or.inr (Or.inr (Or.inr rfl)))
        simp [e1, e2, e3, e4]
    refine ⟨hmain, ?_⟩
    rw [hmain]
    simp
    omega

def wFullStats : Statistics :=
  { levels := some
      { input := some
          { loudness := some ⟨"-19.1", "LUFS"⟩, snr := some ⟨"45.2", "dB"⟩,
            peak := none }
        output := some
          { loudness := some ⟨"-16.0", "LUFS"⟩, snr := none,
            peak := some ⟨"-1.6", "dBTP"⟩ } }
    cuts := some [⟨"silence", "4", "2.1"⟩, ⟨"filler", "7", "1.3"⟩] }

theorem extract_stats_absent_and_full_witness :
    extract_stats (some { levels := none, cuts := none }) = none
    ∧ extract_stats (some wFullStats) =
        some ([("input_loudness", fmtMetric ⟨"-19.1", "LUFS"⟩),
              ("input_snr", fmtMetric ⟨"45.2", "dB"⟩),
              ("output_loudness", fmtMetric ⟨"-16.0", "LUFS"⟩),
              ("output_peak", fmtMetric ⟨"-1.6", "dBTP"⟩)]
          ++ [⟨"silence", "4", "2.1"⟩, ⟨"filler", "7", "1.3"⟩].map
              (fun c => ("cuts_" ++ c.name, fmtCut c))) :=
  ⟨extract_stats_absent_and_full.2.1 { levels := none, cuts := none } rfl,
    (extract_stats_absent_and_full.2.2.2 wFullStats
      { input := some
          { loudness := some ⟨"-19.1", "LUFS"⟩, snr := some ⟨"45.2", "dB"⟩,
            peak := none }
        output := some
          { loudness := some ⟨"-16.0", "LUFS"⟩, snr := none,
            peak := some ⟨"-1.6", "dBTP"⟩ } }
      ⟨"-19.1", "LUFS"⟩ ⟨"45.2", "dB"⟩ ⟨"-16.0", "LUFS"⟩ ⟨"-1.6", "dBTP"⟩
      [⟨"silence", "4", "2.1"⟩, ⟨"filler", "7", "1.3"⟩]
      rfl rfl rfl rfl rfl rfl (by decide)).1⟩

/-! ## Claim theorems about the Submitter -/

/-- Whether a submission outcome is a returned Job handle rather than a
fatal abort. -/
def submissionOk : Except String ProductionData → Bool
  | .ok _ => true
  | .error _ => false

def w201Resp : UploadResponse :=
  ⟨201, ⟨none, none, { emptyProductionData with uuid := "prod-9" }⟩⟩

/-- C8 as stated is false on the code: a 201 transport response is 2xx and
carries no application-level error, yet `upload_and_start` aborts, because
the source tests `resp.status_code != 200`, not "non-2xx". -/
theorem upload_and_start_2xx_claim_counterexample :
    (200 ≤ w201Resp.status_code ∧ w201Resp.status_code < 300)
    ∧ strTruthy w201Resp.body.error_code = false
    ∧ submissionOk (upload_and_start w201Resp) = false := by decide

/-- C8 amended: the submission fails fatally exactly when the transport
status code differs from 200 or the body carries a truthy application-level
error code, and otherwise it returns the `data` of the body as the Job handle;
the single request is never retried. -/
theorem upload_and_start_fails_iff_non200_or_app_error (resp : UploadResponse) :
    (submissionOk (upload_and_start resp) = true ↔
      (resp.status_code = 200 ∧ strTruthy resp.body.error_code = false))
    ∧ (∀ d, upload_and_start resp = .ok d → d = resp.body.data) := by
  constructor
  · by_cases h1 : resp.status_code = 200
    · by_cases h2 : strTruthy resp.body.error_code
      · simp [upload_and_start, h1, h2, submissionOk]
      · simp [upload_and_start, h1, h2, submissionOk]
    · simp [upload_and_start, h1, submissionOk]
  · intro d hd
    unfold upload_and_start at hd
    split at hd
    · simp at hd
    · split at hd
      · simp at hd
      · injection hd with h
        exact h.symm

def wOkResp : UploadResponse :=
  ⟨200, ⟨none, none, { emptyProductionData with uuid := "prod-1" }⟩⟩

theorem upload_and_start_fails_iff_non200_or_app_error_witness :
    (submissionOk (upload_and_start wOkResp) = true ↔
      (wOkResp.status_code = 200 ∧ strTruthy wOkResp.body.error_code = false))
    ∧ ({ emptyProductionData with uuid := "prod-1" } : ProductionData) =
        wOkResp.body.data :=
  ⟨(upload_and_start_fails_iff_non200_or_app_error wOkResp).1,
    (upload_and_start_fails_iff_non200_or_app_error wOkResp).2
      { emptyProductionData with uuid := "prod-1" } rfl⟩

/-! ## Claim theorems about the persist step of the IndexReconciler -/

/-- C9 as stated is false on the code: during the truncate-then-write
persist of `update_index`, an intermediate on-disk state ("NE" here, and
also the empty truncated file) is neither the old complete content nor the
new complete content. -/
theorem update_index_persist_claim_counterexample :
    ¬ (∀ s ∈ persistStates "OLD" ["NE", "W"],
        s = "OLD" ∨ s = String.join ["NE", "W"]) := by decide

/-- C9 amended: the persist step rewrites the index file in place rather
than atomically: the final observable state is the complete new content, but
every partial prefix of the new content — including the empty file left by
truncation — is also observable, so a failure partway through can leave a
partial index on disk. -/
theorem update_index_persist_truncates_then_writes (old : String)
    (chunks : List String) :
    (persistStates old chunks).getLast? = some (String.join chunks)
    ∧ "" ∈ persistStates old chunks
    ∧ ∀ i, String.join (chunks.take i) ∈ persistStates old chunks := by
  have hmem : ∀ i, String.join (chunks.take i) ∈ persistStates old chunks := by
    intro i
    rcases le_or_lt i chunks.length with h | h
    · refine List.mem_cons_of_mem old ?_
      refine List.mem_map.2 ⟨i, ?_, rfl⟩
      rw [List.mem_range]
      omega
    · refine List.mem_cons_of_mem old ?_
      refine List.mem_map.2 ⟨chunks.length, ?_, ?_⟩
      · rw [List.mem_range]
        omega
      · rw [List.take_length, List.take_of_length_le (le_of_lt h)]
  refine ⟨?_, ?_, hmem⟩
  · rw [persistStates, List.range_succ, List.map_append]
    rw [show old :: (List.map (fun i => String.join (chunks.take i))
          (List.range chunks.length) ++
        List.map (fun i => String.join (chunks.take i)) [chunks.length]) =
      (old :: List.map (fun i => String.join (chunks.take i))
          (List.range chunks.length)) ++
        [String.join (chunks.take chunks.length)] from by simp]
    rw [List.getLast?_concat, List.take_length]
  · have h0 := hmem 0
    simpa using h0

end AuphonicOptimize
